import Mathlib

/-!
Verification of the xmltosps Triple-S → SPS syntax generator.

The Go program parses a Triple-S XML variable dictionary and writes an SPS
syntax file consisting of a DATA LIST block, a VARIABLE LABELS block, a
VALUE LABELS block and a SAVE directive.  Every `WriteString` call on the
output file is modelled as one write against an abstract `Sink` that can
fail on a chosen write attempt; the Go idiom of checking err after each
write and returning it early is modelled by `andThen`.  For each generator
there is, in addition, a pure
function computing the exact list of strings the generator writes, and
bridge lemmas prove the effectful generators equal to replaying those lists
against the sink.
-/

/-- Position of a variable in the fixed-width record (struct Posit,
xmltosps.go lines 44-48): `start`/`finish` attributes of position. -/
structure Posit where
  start : Int
  finish : Int
deriving Repr, DecidableEq

/-- A coded value (struct Val, lines 50-53): `code` attribute and chardata. -/
structure Val where
  value : Int
  name : String
deriving Repr, DecidableEq

/-- A survey variable (struct Variable, lines 35-42). -/
structure Variable where
  type : String
  name : String
  label : String
  position : Posit
  vals : List Val
deriving Repr, DecidableEq

/-- The parsed document (struct Variables, lines 30-33).  The Go field is
called `Variable`; `variable` is reserved in Lean so the field is `vars`. -/
structure Variables where
  vars : List Variable
deriving Repr, DecidableEq

/-- VarType (lines 57-65): alignment marker appended to a DATA LIST line. -/
def Variable.VarType (v : Variable) : String :=
  if v.type = "character" ∨ v.type = "time" then " (A)"
  else if v.type = "date" then " (A)"
  else ""

/-- Error produced by a failing sink write: the index of the failing write
attempt and the string whose write failed. -/
structure SinkErr where
  idx : Nat
  data : String
deriving Repr, DecidableEq

/-- Abstract output sink standing for the *os.File the generators write to.
`written` is what reached the file, `ops` counts write attempts, and
`failAt` makes the attempt with that index fail (a transient I/O error;
all other attempts succeed). -/
structure Sink where
  written : List String
  ops : Nat
  failAt : Option Nat
deriving Repr, DecidableEq

/-- One WriteString call: fails exactly on attempt `failAt`. -/
def Sink.write (f : Sink) (s : String) : Option SinkErr × Sink :=
  if f.failAt = some f.ops then
    (some ⟨f.ops, s⟩, { f with ops := f.ops + 1 })
  else
    (none, { written := f.written ++ [s], ops := f.ops + 1, failAt := f.failAt })

/-- A sink that never fails. -/
def okSink : Sink := ⟨[], 0, none⟩

/-- A fresh sink whose write attempt number `n` fails. -/
def failSink (n : Nat) : Sink := ⟨[], 0, some n⟩

/-- The Go early-return idiom: run the continuation only when the previous
write returned a nil error, otherwise return the error unmodified. -/
def andThen (r : Option SinkErr × Sink) (k : Sink → Option SinkErr × Sink) :
    Option SinkErr × Sink :=
  match r with
  | (some e, f) => (some e, f)
  | (none, f) => k f

/-- Replay a list of strings against the sink, stopping at the first error. -/
def writeAll : List String → Sink → Option SinkErr × Sink
  | [], f => (none, f)
  | s :: rest, f => andThen (f.write s) (writeAll rest)

/-- Inner loop of DataList over the coded values of a `multiple` variable
(lines 85-91): `i` is the zero-based loop index. -/
def dataListMultLoop (v : Variable) : Nat → List Val → Sink → Option SinkErr × Sink
  | _, [], f => (none, f)
  | i, mult :: rest, f =>
    andThen (f.write ("\t" ++ v.name ++ "#" ++ toString mult.value ++ "\t" ++
        toString (v.position.start + Int.ofNat i) ++ "-" ++
        toString (v.position.start + Int.ofNat i) ++ "\n")) fun f =>
      dataListMultLoop v (i + 1) rest f

/-- Loop of DataList over the document's variables (lines 77-93). -/
def dataListLoop : List Variable → Sink → Option SinkErr × Sink
  | [], f => (none, f)
  | v :: rest, f =>
    if v.type ≠ "multiple" then
      andThen (f.write ("\t" ++ v.name ++ "\t" ++ toString v.position.start ++ "-" ++
          toString v.position.finish ++ v.VarType ++ "\n")) fun f =>
        dataListLoop rest f
    else
      andThen (dataListMultLoop v 0 v.vals f) fun f => dataListLoop rest f

/-- DataList (lines 68-99): FILE HANDLE header, DATA LIST header, one line
per layout entry, statement terminator. -/
def DataList (o : String) (f : Sink) (d : Variables) : Option SinkErr × Sink :=
  andThen (f.write ("FILE HANDLE longdata\n/NAME=\"" ++ o ++ "\".\n")) fun f =>
  andThen (f.write ("DATA LIST FILE=longdata\n/")) fun f =>
  andThen (dataListLoop d.vars f) fun f =>
  andThen (f.write (".\n\n")) fun f => (none, f)

/-- Inner loop of VariableLabels for a `multiple` variable (lines 115-120). -/
def variableLabelsMultLoop (v : Variable) : List Val → Sink → Option SinkErr × Sink
  | [], f => (none, f)
  | mult :: rest, f =>
    andThen (f.write ("\t" ++ v.name ++ "#" ++ toString mult.value ++ "\t\"" ++
        v.label ++ "\"\n")) fun f =>
      variableLabelsMultLoop v rest f

/-- Loop of VariableLabels over the document's variables (lines 108-122). -/
def variableLabelsLoop : List Variable → Sink → Option SinkErr × Sink
  | [], f => (none, f)
  | v :: rest, f =>
    if v.type ≠ "multiple" then
      andThen (f.write ("\t" ++ v.name ++ "\t\"" ++ v.label ++ "\"\n")) fun f =>
        variableLabelsLoop rest f
    else
      andThen (variableLabelsMultLoop v v.vals f) fun f => variableLabelsLoop rest f

/-- VariableLabels (lines 103-128). -/
def VariableLabels (f : Sink) (d : Variables) : Option SinkErr × Sink :=
  andThen (f.write ("VARIABLE LABELS\n")) fun f =>
  andThen (variableLabelsLoop d.vars f) fun f =>
  andThen (f.write (".\nEXECUTE.\n\n\n")) fun f => (none, f)

/-- Inner loop of ValueLabels over the coded values of a `single` variable
(lines 143-148); note the second Sprintf argument is v.Name. -/
def singleValsLoop (v : Variable) : List Val → Sink → Option SinkErr × Sink
  | [], f => (none, f)
  | vs :: rest, f =>
    andThen (f.write ("\t\t" ++ toString vs.value ++ " \"" ++ v.name ++ "\"\n")) fun f =>
      singleValsLoop v rest f

/-- Inner loop of ValueLabels over the coded values of a `multiple` variable
(lines 154-163). -/
def multValsLoop (v : Variable) : List Val → Sink → Option SinkErr × Sink
  | [], f => (none, f)
  | mult :: rest, f =>
    andThen (f.write ("\t" ++ v.name ++ "#" ++ toString mult.value ++ "\n")) fun f =>
    andThen (f.write ("\t\t0\"No\"\n\t\t1 \"" ++ mult.name ++ "\"\n/")) fun f =>
      multValsLoop v rest f

/-- Loop of ValueLabels over the document's variables (lines 137-174). -/
def valueLabelsLoop : List Variable → Sink → Option SinkErr × Sink
  | [], f => (none, f)
  | v :: rest, f =>
    if v.type = "single" then
      andThen (f.write ("\t" ++ v.name ++ "\n")) fun f =>
      andThen (singleValsLoop v v.vals f) fun f =>
      andThen (f.write ("/")) fun f => valueLabelsLoop rest f
    else if v.type = "multiple" then
      andThen (multValsLoop v v.vals f) fun f => valueLabelsLoop rest f
    else if v.type = "logical" then
      andThen (f.write ("\t" ++ v.name ++ "\n")) fun f =>
      andThen (f.write ("\t\t0\"False\"\n\t\t1 \"True\"\n/")) fun f =>
        valueLabelsLoop rest f
    else valueLabelsLoop rest f

/-- ValueLabels (lines 132-180). -/
def ValueLabels (f : Sink) (d : Variables) : Option SinkErr × Sink :=
  andThen (f.write ("VALUE LABELS\n")) fun f =>
  andThen (valueLabelsLoop d.vars f) fun f =>
  andThen (f.write ("EXECUTE.\n\n")) fun f => (none, f)

/-- The single string SaveToSPSS writes (line 185). -/
def saveMsg (p fn : String) : String :=
  "SAVE OUTFILE='" ++ p ++ "/" ++ fn ++ ".sav'\n/COMPRESSED."

/-- Outcome of SaveToSPSS: either it returns (always with a nil error, line
189), or the write failed and log.Fatalln terminated the process (line 187),
so nothing is returned to the caller. -/
inductive SaveResult where
  | ok (f : Sink)
  | fatalExit (e : SinkErr) (f : Sink)
deriving Repr, DecidableEq

/-- SaveToSPSS (lines 184-190): on write failure the function does not
return the error; it calls log.Fatalln. -/
def SaveToSPSS (p fn : String) (f : Sink) : SaveResult :=
  match f.write (saveMsg p fn) with
  | (some e, f') => SaveResult.fatalExit e f'
  | (none, f') => SaveResult.ok f'

/-- Outcome of the generation half of main: either some step hit an error
and log.Fatalln terminated the process, or all steps completed. -/
inductive RunOutcome where
  | fatal (e : SinkErr) (f : Sink)
  | done (f : Sink)
deriving Repr, DecidableEq

/-- Models main from line 204 on (after the XML bytes are read and the
output file is created).  `parsed` is the result of xml.Unmarshal — the
error it returned, if any, together with whatever data was bound (the
zero-value document when nothing parsed).  Line 206 discards that error,
which is mirrored here by never inspecting `parsed.1`.  The four generation
steps then run with the fatal-error checks of lines 215-225. -/
def mainGenerate (parsed : Option String × Variables) (ascPath dir fn : String)
    (f : Sink) : RunOutcome :=
  let data := parsed.2
  match DataList ascPath f data with
  | (some e, f1) => RunOutcome.fatal e f1
  | (none, f1) =>
    match VariableLabels f1 data with
    | (some e, f2) => RunOutcome.fatal e f2
    | (none, f2) =>
      match ValueLabels f2 data with
      | (some e, f3) => RunOutcome.fatal e f3
      | (none, f3) =>
        match SaveToSPSS dir fn f3 with
        | SaveResult.fatalExit e f4 => RunOutcome.fatal e f4
        | SaveResult.ok f4 => RunOutcome.done f4

/-- Pure form of the DataList inner loop for a `multiple` variable: the
lines written by lines 85-91 starting at loop index `i`. -/
def dataListMultMsgs (v : Variable) : Nat → List Val → List String
  | _, [] => []
  | i, mult :: rest =>
    ("\t" ++ v.name ++ "#" ++ toString mult.value ++ "\t" ++
      toString (v.position.start + Int.ofNat i) ++ "-" ++
      toString (v.position.start + Int.ofNat i) ++ "\n") ::
      dataListMultMsgs v (i + 1) rest

/-- The layout-block lines one variable contributes (lines 77-93). -/
def dataListVarMsgs (v : Variable) : List String :=
  if v.type ≠ "multiple" then
    ["\t" ++ v.name ++ "\t" ++ toString v.position.start ++ "-" ++
      toString v.position.finish ++ v.VarType ++ "\n"]
  else dataListMultMsgs v 0 v.vals

/-- All strings DataList writes, in order (lines 68-99). -/
def dataListMsgs (o : String) (d : Variables) : List String :=
  ("FILE HANDLE longdata\n/NAME=\"" ++ o ++ "\".\n") ::
    "DATA LIST FILE=longdata\n/" :: (d.vars.flatMap dataListVarMsgs ++ [".\n\n"])

/-- The variable-label lines one variable contributes (lines 108-122). -/
def variableLabelsVarMsgs (v : Variable) : List String :=
  if v.type ≠ "multiple" then
    ["\t" ++ v.name ++ "\t\"" ++ v.label ++ "\"\n"]
  else
    v.vals.map (fun mult =>
      "\t" ++ v.name ++ "#" ++ toString mult.value ++ "\t\"" ++ v.label ++ "\"\n")

/-- All strings VariableLabels writes, in order (lines 103-128). -/
def variableLabelsMsgs (d : Variables) : List String :=
  "VARIABLE LABELS\n" :: (d.vars.flatMap variableLabelsVarMsgs ++ [".\nEXECUTE.\n\n\n"])

/-- The value-label strings one variable contributes (lines 137-174). -/
def valueLabelsVarMsgs (v : Variable) : List String :=
  if v.type = "single" then
    ("\t" ++ v.name ++ "\n") ::
      (v.vals.map (fun vs => "\t\t" ++ toString vs.value ++ " \"" ++ v.name ++ "\"\n") ++
        ["/"])
  else if v.type = "multiple" then
    v.vals.flatMap (fun mult =>
      ["\t" ++ v.name ++ "#" ++ toString mult.value ++ "\n",
        "\t\t0\"No\"\n\t\t1 \"" ++ mult.name ++ "\"\n/"])
  else if v.type = "logical" then
    ["\t" ++ v.name ++ "\n", "\t\t0\"False\"\n\t\t1 \"True\"\n/"]
  else []

/-- All strings ValueLabels writes, in order (lines 132-180). -/
def valueLabelsMsgs (d : Variables) : List String :=
  "VALUE LABELS\n" :: (d.vars.flatMap valueLabelsVarMsgs ++ ["EXECUTE.\n\n"])

/-- Naming rule shared by the layout and variable-label blocks (spec §4.3,
§4.4): the plain variable name for a non-multiple variable, and the
synthetic `name#code` for each coded value of a multiple variable. -/
def layoutEntryNames (v : Variable) : List String :=
  if v.type ≠ "multiple" then [v.name]
  else v.vals.map (fun mult => v.name ++ "#" ++ toString mult.value)

/-- Early return: once an error is in hand, the continuation is irrelevant. -/
theorem andThen_congr {r : Option SinkErr × Sink} {k k' : Sink → Option SinkErr × Sink}
    (h : ∀ g, k g = k' g) : andThen r k = andThen r k' := by
  rcases r with ⟨e, g⟩
  cases e <;> simp [andThen, h]

/-- Associativity of the early-return idiom. -/
theorem andThen_assoc (r : Option SinkErr × Sink) (k k2 : Sink → Option SinkErr × Sink) :
    andThen (andThen r k) k2 = andThen r (fun g => andThen (k g) k2) := by
  rcases r with ⟨e, g⟩
  cases e <;> simp [andThen]

/-- Replaying a concatenation replays the pieces in order. -/
theorem writeAll_append (a b : List String) :
    ∀ f : Sink, writeAll (a ++ b) f = andThen (writeAll a f) (writeAll b) := by
  induction a with
  | nil => intro f; simp [writeAll, andThen]
  | cons s rest ih =>
    intro f
    simp only [List.cons_append, writeAll]
    rw [andThen_assoc]
    exact andThen_congr fun g => ih g

/-- Against a sink that never fails, replaying appends every string. -/
theorem writeAll_ok (msgs : List String) :
    ∀ (w : List String) (k : Nat),
      writeAll msgs ⟨w, k, none⟩ = (none, ⟨w ++ msgs, k + msgs.length, none⟩) := by
  induction msgs with
  | nil => intro w k; simp [writeAll]
  | cons s rest ih =>
    intro w k
    simp only [writeAll, Sink.write]
    rw [if_neg (by simp)]
    simp only [andThen]
    rw [ih (w ++ [s]) (k + 1)]
    simp only [List.append_assoc, List.singleton_append, List.length_cons,
      Prod.mk.injEq, Sink.mk.injEq, true_and, and_true]
    omega

/-- Against a sink whose attempt `n` fails, replaying stops at the failing
write: it returns exactly the error that write produced, the sink holds the
writes made before the failure, and the failing attempt is the last one. -/
theorem writeAll_fail (msgs : List String) :
    ∀ (w : List String) (k n : Nat), k ≤ n → n - k < msgs.length →
      writeAll msgs ⟨w, k, some n⟩ =
        (some ⟨n, msgs.getD (n - k) ""⟩, ⟨w ++ msgs.take (n - k), n + 1, some n⟩) := by
  induction msgs with
  | nil => intro w k n _ hlt; simp at hlt
  | cons s rest ih =>
    intro w k n hk hlt
    simp only [writeAll, Sink.write]
    by_cases hnk : n = k
    · subst hnk
      rw [if_pos (by simp)]
      simp [andThen, Nat.sub_self]
    · have hkn : k < n := lt_of_le_of_ne hk (Ne.symm hnk)
      rw [if_neg (by simp; omega)]
      simp only [andThen]
      rw [ih (w ++ [s]) (k + 1) n (by omega) (by simp only [List.length_cons] at hlt; omega)]
      obtain ⟨m, hm⟩ : ∃ m, n - k = m + 1 := ⟨n - k - 1, by omega⟩
      have h2 : n - (k + 1) = m := by omega
      rw [hm, h2]
      simp [List.append_assoc]

/-- The DataList inner loop replays its pure line list. -/
theorem dataListMultLoop_writeAll (v : Variable) (vals : List Val) :
    ∀ (i : Nat) (f : Sink),
      dataListMultLoop v i vals f = writeAll (dataListMultMsgs v i vals) f := by
  induction vals with
  | nil => intro i f; rfl
  | cons mult rest ih =>
    intro i f
    simp only [dataListMultLoop, dataListMultMsgs, writeAll]
    exact andThen_congr fun g => ih (i + 1) g

/-- The DataList variable loop replays its pure line list. -/
theorem dataListLoop_writeAll (vs : List Variable) :
    ∀ f : Sink, dataListLoop vs f = writeAll (vs.flatMap dataListVarMsgs) f := by
  induction vs with
  | nil => intro f; rfl
  | cons v rest ih =>
    intro f
    by_cases h : v.type = "multiple"
    · simp only [dataListLoop, dataListVarMsgs, h, List.flatMap_cons]
      rw [if_neg (by simp), if_neg (by simp), writeAll_append, dataListMultLoop_writeAll]
      exact andThen_congr fun g => ih g
    · simp only [dataListLoop, dataListVarMsgs, List.flatMap_cons]
      rw [if_pos h, if_pos h, List.singleton_append]
      simp only [writeAll]
      exact andThen_congr fun g => ih g

/-- DataList is the replay of its pure message list. -/
theorem DataList_writeAll (o : String) (f : Sink) (d : Variables) :
    DataList o f d = writeAll (dataListMsgs o d) f := by
  simp only [DataList, dataListMsgs, writeAll]
  refine andThen_congr fun f1 => ?_
  refine andThen_congr fun f2 => ?_
  rw [writeAll_append, dataListLoop_writeAll]
  refine andThen_congr fun f3 => ?_
  simp [writeAll, andThen]

/-- The VariableLabels inner loop replays its pure line list. -/
theorem variableLabelsMultLoop_writeAll (v : Variable) (vals : List Val) :
    ∀ f : Sink,
      variableLabelsMultLoop v vals f =
        writeAll (vals.map (fun mult =>
          "\t" ++ v.name ++ "#" ++ toString mult.value ++ "\t\"" ++ v.label ++ "\"\n")) f := by
  induction vals with
  | nil => intro f; rfl
  | cons mult rest ih =>
    intro f
    simp only [variableLabelsMultLoop, List.map_cons, writeAll]
    exact andThen_congr fun g => ih g

/-- The VariableLabels variable loop replays its pure line list. -/
theorem variableLabelsLoop_writeAll (vs : List Variable) :
    ∀ f : Sink, variableLabelsLoop vs f = writeAll (vs.flatMap variableLabelsVarMsgs) f := by
  induction vs with
  | nil => intro f; rfl
  | cons v rest ih =>
    intro f
    by_cases h : v.type = "multiple"
    · simp only [variableLabelsLoop, variableLabelsVarMsgs, h, List.flatMap_cons]
      rw [if_neg (by simp), if_neg (by simp), writeAll_append, variableLabelsMultLoop_writeAll]
      exact andThen_congr fun g => ih g
    · simp only [variableLabelsLoop, variableLabelsVarMsgs, List.flatMap_cons]
      rw [if_pos h, if_pos h, List.singleton_append]
      simp only [writeAll]
      exact andThen_congr fun g => ih g

/-- VariableLabels is the replay of its pure message list. -/
theorem VariableLabels_writeAll (f : Sink) (d : Variables) :
    VariableLabels f d = writeAll (variableLabelsMsgs d) f := by
  simp only [VariableLabels, variableLabelsMsgs, writeAll]
  refine andThen_congr fun f1 => ?_
  rw [writeAll_append, variableLabelsLoop_writeAll]
  refine andThen_congr fun f2 => ?_
  simp [writeAll, andThen]

/-- The single-variable value loop replays its pure line list. -/
theorem singleValsLoop_writeAll (v : Variable) (vals : List Val) :
    ∀ f : Sink,
      singleValsLoop v vals f =
        writeAll (vals.map (fun vs =>
          "\t\t" ++ toString vs.value ++ " \"" ++ v.name ++ "\"\n")) f := by
  induction vals with
  | nil => intro f; rfl
  | cons vs rest ih =>
    intro f
    simp only [singleValsLoop, List.map_cons, writeAll]
    exact andThen_congr fun g => ih g

/-- The multiple-variable value loop replays its pure line list. -/
theorem multValsLoop_writeAll (v : Variable) (vals : List Val) :
    ∀ f : Sink,
      multValsLoop v vals f =
        writeAll (vals.flatMap (fun mult =>
          ["\t" ++ v.name ++ "#" ++ toString mult.value ++ "\n",
            "\t\t0\"No\"\n\t\t1 \"" ++ mult.name ++ "\"\n/"])) f := by
  induction vals with
  | nil => intro f; rfl
  | cons mult rest ih =>
    intro f
    simp only [multValsLoop, List.flatMap_cons, List.cons_append, List.nil_append, writeAll]
    refine andThen_congr fun g => ?_
    exact andThen_congr fun g2 => ih g2

/-- The ValueLabels variable loop replays its pure line list. -/
theorem valueLabelsLoop_writeAll (vs : List Variable) :
    ∀ f : Sink, valueLabelsLoop vs f = writeAll (vs.flatMap valueLabelsVarMsgs) f := by
  induction vs with
  | nil => intro f; rfl
  | cons v rest ih =>
    intro f
    simp only [valueLabelsLoop, valueLabelsVarMsgs, List.flatMap_cons]
    by_cases h1 : v.type = "single"
    · rw [if_pos h1, if_pos h1, List.cons_append]
      simp only [writeAll]
      refine andThen_congr fun g => ?_
      rw [List.append_assoc, writeAll_append, singleValsLoop_writeAll]
      refine andThen_congr fun g2 => ?_
      simp only [List.cons_append, List.nil_append, writeAll]
      exact andThen_congr fun g3 => ih g3
    · rw [if_neg h1, if_neg h1]
      by_cases h2 : v.type = "multiple"
      · rw [if_pos h2, if_pos h2, writeAll_append, multValsLoop_writeAll]
        exact andThen_congr fun g => ih g
      · rw [if_neg h2, if_neg h2]
        by_cases h3 : v.type = "logical"
        · rw [if_pos h3, if_pos h3]
          simp only [List.cons_append, List.nil_append, writeAll]
          refine andThen_congr fun g => ?_
          exact andThen_congr fun g2 => ih g2
        · rw [if_neg h3, if_neg h3, List.nil_append]
          exact ih f

/-- ValueLabels is the replay of its pure message list. -/
theorem ValueLabels_writeAll (f : Sink) (d : Variables) :
    ValueLabels f d = writeAll (valueLabelsMsgs d) f := by
  simp only [ValueLabels, valueLabelsMsgs, writeAll]
  refine andThen_congr fun f1 => ?_
  rw [writeAll_append, valueLabelsLoop_writeAll]
  refine andThen_congr fun f2 => ?_
  simp [writeAll, andThen]

/-- The DataList inner loop emits one line per coded value. -/
theorem dataListMultMsgs_length (v : Variable) (vals : List Val) :
    ∀ j : Nat, (dataListMultMsgs v j vals).length = vals.length := by
  induction vals with
  | nil => intro j; rfl
  | cons mult rest ih => intro j; simp [dataListMultMsgs, ih]

/-- Closed form of the DataList inner loop: the line for the `i`-th coded
value (zero-based) carries that value's code and the one-column span at
offset `j + i` from the variable's start column. -/
theorem dataListMultMsgs_range (v : Variable) (vals : List Val) :
    ∀ j : Nat, dataListMultMsgs v j vals = (List.range vals.length).map (fun i =>
      "\t" ++ v.name ++ "#" ++ toString (vals.getD i ⟨0, ""⟩).value ++ "\t" ++
      toString (v.position.start + Int.ofNat (j + i)) ++ "-" ++
      toString (v.position.start + Int.ofNat (j + i)) ++ "\n") := by
  induction vals with
  | nil => intro j; simp [dataListMultMsgs]
  | cons mult rest ih =>
    intro j
    simp only [dataListMultMsgs, List.length_cons, List.range_succ_eq_map,
      List.map_cons, List.map_map]
    rw [ih (j + 1)]
    refine congrArg₂ List.cons rfl ?_
    refine List.map_congr_left fun i _ => ?_
    simp only [Function.comp_apply, Nat.succ_eq_add_one, List.getD_cons_succ,
      show j + (i + 1) = j + 1 + i from by omega]

/-- The layout-block names of a multiple variable pair up with its emitted
layout lines: same order, same count, each line starting with its name. -/
theorem layoutNames_mult_forall2 (v : Variable) (vals : List Val) :
    ∀ j : Nat, List.Forall₂ (fun nm line => ∃ r, line = "\t" ++ nm ++ "\t" ++ r)
      (vals.map (fun mult => v.name ++ "#" ++ toString mult.value))
      (dataListMultMsgs v j vals) := by
  induction vals with
  | nil => intro j; exact List.Forall₂.nil
  | cons mult rest ih =>
    intro j
    simp only [List.map_cons, dataListMultMsgs]
    refine List.Forall₂.cons ⟨toString (v.position.start + Int.ofNat j) ++ "-" ++
      toString (v.position.start + Int.ofNat j) ++ "\n", ?_⟩ (ih (j + 1))
    simp [String.append_assoc]

/-- Running ValueLabels on a one-variable document against a never-failing
sink writes the header, that variable's value-label strings, and the
final execute directive. -/
theorem ValueLabels_run_one (v : Variable) :
    ValueLabels okSink ⟨[v]⟩ =
      (none, ⟨"VALUE LABELS\n" :: (valueLabelsVarMsgs v ++ ["EXECUTE.\n\n"]),
        (valueLabelsVarMsgs v).length + 2, none⟩) := by
  rw [ValueLabels_writeAll]
  have hmsg : valueLabelsMsgs ⟨[v]⟩ =
      "VALUE LABELS\n" :: (valueLabelsVarMsgs v ++ ["EXECUTE.\n\n"]) := by
    simp [valueLabelsMsgs]
  rw [show okSink = (⟨[], 0, none⟩ : Sink) from rfl, writeAll_ok, hmsg]
  simp only [List.nil_append, Nat.zero_add, List.length_cons, List.length_append,
    List.length_nil, Prod.mk.injEq, Sink.mk.injEq, true_and, and_true]

/-- C3: for a `multiple` Variable with declared start column S, the layout
block emits one line per coded value, named name#code with that coded
value's own integer code, whose column span is [S+i, S+i] for the i-th
(zero-based) coded value, regardless of the declared finish column. -/
theorem dataList_multiple_consecutive_columns :
    ∀ v : Variable, v.type = "multiple" →
      dataListVarMsgs v = (List.range v.vals.length).map (fun i =>
        "\t" ++ v.name ++ "#" ++ toString (v.vals.getD i ⟨0, ""⟩).value ++ "\t" ++
        toString (v.position.start + Int.ofNat i) ++ "-" ++
        toString (v.position.start + Int.ofNat i) ++ "\n") := by
  intro v h
  simp only [dataListVarMsgs]
  rw [if_neg (by simp [h]), dataListMultMsgs_range]
  refine List.map_congr_left fun i _ => ?_
  simp

/-- C3 witness: a multiple variable with start column 6, declared finish 9
and coded values 1 and 5 yields the one-column spans 6-6 and 7-7. -/
theorem dataList_multiple_consecutive_columns_witness :
    dataListVarMsgs ⟨"multiple", "Q2", "Multi", ⟨6, 9⟩, [⟨1, "Red"⟩, ⟨5, "Blue"⟩]⟩ =
      ["\tQ2#1\t6-6\n", "\tQ2#5\t7-7\n"] := by
  have h := dataList_multiple_consecutive_columns
    ⟨"multiple", "Q2", "Multi", ⟨6, 9⟩, [⟨1, "Red"⟩, ⟨5, "Blue"⟩]⟩ rfl
  exact h.trans (by decide)

/-- C4: the layout block is the two headers, one entry per non-multiple
variable and len(vals) entries per multiple variable in document order,
and the terminator; so the body length is the count of non-multiple
variables plus the sum of coded-value counts over multiple variables. -/
theorem dataList_entry_counts :
    (∀ v : Variable,
      (dataListVarMsgs v).length = if v.type = "multiple" then v.vals.length else 1) ∧
    (∀ (o : String) (f : Sink) (d : Variables),
      DataList o f d = writeAll (dataListMsgs o d) f) ∧
    (∀ (o : String) (d : Variables),
      dataListMsgs o d = ("FILE HANDLE longdata\n/NAME=\"" ++ o ++ "\".\n") ::
        "DATA LIST FILE=longdata\n/" :: (d.vars.flatMap dataListVarMsgs ++ [".\n\n"])) ∧
    (∀ d : Variables, (d.vars.flatMap dataListVarMsgs).length =
      (d.vars.filter (fun v => !(v.type == "multiple"))).length +
      ((d.vars.filter (fun v => v.type == "multiple")).map (fun v => v.vals.length)).sum) := by
  refine ⟨?_, fun o f d => DataList_writeAll o f d, fun o d => rfl, ?_⟩
  · intro v
    by_cases h : v.type = "multiple"
    · rw [if_pos h]
      simp only [dataListVarMsgs]
      rw [if_neg (by simp [h])]
      exact dataListMultMsgs_length v v.vals 0
    · rw [if_neg h]
      simp only [dataListVarMsgs]
      rw [if_pos h]
      rfl
  · intro d
    obtain ⟨vs⟩ := d
    show (vs.flatMap dataListVarMsgs).length = _
    induction vs with
    | nil => rfl
    | cons v rest ih =>
      simp only [List.flatMap_cons, List.length_append, List.filter_cons]
      by_cases h : v.type = "multiple"
      · have hb : (v.type == "multiple") = true := by simp [h]
        have hlen : (dataListVarMsgs v).length = v.vals.length := by
          simp only [dataListVarMsgs]
          rw [if_neg (by simp [h])]
          exact dataListMultMsgs_length v v.vals 0
        rw [hlen, ih]
        simp only [hb, Bool.not_true, Bool.false_eq_true, if_false, if_true,
          List.map_cons, List.sum_cons]
        omega
      · have hb : (v.type == "multiple") = false := by simp [h]
        have hlen : (dataListVarMsgs v).length = 1 := by
          simp only [dataListVarMsgs]
          rw [if_pos h]
          rfl
        rw [hlen, ih]
        simp only [hb, Bool.not_false, Bool.false_eq_true, if_false, if_true,
          List.length_cons]
        omega

/-- C8: the variable-label block emits exactly one label assignment per
layout entry, pairing each entry name (plain name for non-multiple
variables, name#code for each coded value of a multiple variable) with the
Variable's own label text; the layout block uses the same names in the
same order, and VariableLabels writes exactly the block's messages. -/
theorem variableLabels_matches_layout_naming :
    (∀ v : Variable, variableLabelsVarMsgs v =
      (layoutEntryNames v).map (fun nm => "\t" ++ nm ++ "\t\"" ++ v.label ++ "\"\n")) ∧
    (∀ v : Variable, List.Forall₂ (fun nm line => ∃ r, line = "\t" ++ nm ++ "\t" ++ r)
      (layoutEntryNames v) (dataListVarMsgs v)) ∧
    (∀ (f : Sink) (d : Variables), VariableLabels f d = writeAll (variableLabelsMsgs d) f) := by
  refine ⟨?_, ?_, fun f d => VariableLabels_writeAll f d⟩
  · intro v
    by_cases h : v.type = "multiple"
    · simp only [variableLabelsVarMsgs, layoutEntryNames]
      rw [if_neg (by simp [h]), if_neg (by simp [h]), List.map_map]
      refine List.map_congr_left fun mult _ => ?_
      simp [String.append_assoc]
    · simp only [variableLabelsVarMsgs, layoutEntryNames]
      rw [if_pos h, if_pos h]
      simp
  · intro v
    by_cases h : v.type = "multiple"
    · simp only [layoutEntryNames, dataListVarMsgs]
      rw [if_neg (by simp [h]), if_neg (by simp [h])]
      exact layoutNames_mult_forall2 v v.vals 0
    · simp only [layoutEntryNames, dataListVarMsgs]
      rw [if_pos h, if_pos h]
      refine List.Forall₂.cons ⟨toString v.position.start ++ "-" ++
        toString v.position.finish ++ v.VarType ++ "\n", ?_⟩ List.Forall₂.nil
      simp [String.append_assoc]

/-- C8 witness: the variable-label lines of a concrete multiple variable
reuse the synthetic names with the variable's label. -/
theorem variableLabels_matches_layout_naming_witness :
    variableLabelsVarMsgs ⟨"multiple", "Q2", "Multi", ⟨6, 6⟩, [⟨1, "Red"⟩, ⟨2, "Blue"⟩]⟩ =
      ["\tQ2#1\t\"Multi\"\n", "\tQ2#2\t\"Multi\"\n"] := by
  have h := variableLabels_matches_layout_naming.1
    ⟨"multiple", "Q2", "Multi", ⟨6, 6⟩, [⟨1, "Red"⟩, ⟨2, "Blue"⟩]⟩
  exact h.trans (by decide)

/-- C10: a `multiple` Variable with an empty coded-value list contributes
no line to any of the three blocks, and removing it from any document
leaves all three generated message lists unchanged. -/
theorem empty_multiple_disappears :
    ∀ v : Variable, v.type = "multiple" → v.vals = [] →
      (dataListVarMsgs v = [] ∧ variableLabelsVarMsgs v = [] ∧ valueLabelsVarMsgs v = []) ∧
      ∀ (o : String) (pre post : List Variable),
        dataListMsgs o ⟨pre ++ v :: post⟩ = dataListMsgs o ⟨pre ++ post⟩ ∧
        variableLabelsMsgs ⟨pre ++ v :: post⟩ = variableLabelsMsgs ⟨pre ++ post⟩ ∧
        valueLabelsMsgs ⟨pre ++ v :: post⟩ = valueLabelsMsgs ⟨pre ++ post⟩ := by
  intro v h hv
  have hne1 : v.type ≠ "single" := by rw [h]; decide
  have hd : dataListVarMsgs v = [] := by
    simp only [dataListVarMsgs]
    rw [if_neg (by simp [h]), hv]
    rfl
  have hvl : variableLabelsVarMsgs v = [] := by
    simp only [variableLabelsVarMsgs]
    rw [if_neg (by simp [h]), hv]
    rfl
  have hvv : valueLabelsVarMsgs v = [] := by
    simp only [valueLabelsVarMsgs]
    rw [if_neg hne1, if_pos h, hv]
    rfl
  refine ⟨⟨hd, hvl, hvv⟩, ?_⟩
  intro o pre post
  refine ⟨?_, ?_, ?_⟩ <;>
    simp [dataListMsgs, variableLabelsMsgs, valueLabelsMsgs, hd, hvl, hvv]

/-- C10 witness: a document holding only an empty multiple variable
generates the same layout block as the empty document. -/
theorem empty_multiple_disappears_witness :
    dataListMsgs "a.asc" ⟨[⟨"multiple", "M0", "Empty", ⟨3, 8⟩, []⟩]⟩ =
      dataListMsgs "a.asc" ⟨[]⟩ := by
  have h := empty_multiple_disappears ⟨"multiple", "M0", "Empty", ⟨3, 8⟩, []⟩ rfl rfl
  exact (h.2 "a.asc" [] []).1

/-- C5 counterexample: a `multiple` Variable with an empty coded-value list
produces no value-label section at all — the block for a document holding
only that variable is just the header and the execute directive — so the
block does not contain a section for every `multiple` Variable. -/
theorem valueLabels_empty_multiple_counterexample :
    (⟨"multiple", "M1", "MultiLabel", ⟨4, 9⟩, []⟩ : Variable).type = "multiple" ∧
    valueLabelsVarMsgs ⟨"multiple", "M1", "MultiLabel", ⟨4, 9⟩, []⟩ = [] ∧
    (ValueLabels okSink ⟨[⟨"multiple", "M1", "MultiLabel", ⟨4, 9⟩, []⟩]⟩).2.written =
      ["VALUE LABELS\n", "EXECUTE.\n\n"] := by
  exact ⟨rfl, rfl, rfl⟩

/-- C5 (amended): the value-label block contains a section for every
`single` and `logical` Variable and for every `multiple` Variable with a
non-empty coded-value list, and no section for a Variable of any other
type; a `multiple` Variable with an empty coded-value list contributes no
section. -/
theorem valueLabels_section_classification :
    ∀ v : Variable,
      (valueLabelsVarMsgs v ≠ [] ↔
        v.type = "single" ∨ v.type = "logical" ∨ (v.type = "multiple" ∧ v.vals ≠ [])) := by
  intro v
  by_cases h1 : v.type = "single"
  · simp [valueLabelsVarMsgs, h1]
  · by_cases h2 : v.type = "multiple"
    · rcases hv : v.vals with _ | ⟨mult, rest⟩
      · simp [valueLabelsVarMsgs, h1, h2, hv]
      · simp [valueLabelsVarMsgs, h1, h2, hv]
    · by_cases h3 : v.type = "logical"
      · simp [valueLabelsVarMsgs, h1, h2, h3]
      · simp [valueLabelsVarMsgs, h1, h2, h3]

/-- C5 witness: a `character` variable contributes no value-label section
while a `logical` one does. -/
theorem valueLabels_section_classification_witness :
    valueLabelsVarMsgs ⟨"character", "Q1", "Name", ⟨1, 5⟩, []⟩ = [] ∧
    valueLabelsVarMsgs ⟨"logical", "B1", "Flag", ⟨6, 6⟩, []⟩ ≠ [] := by
  refine ⟨rfl, ?_⟩
  exact (valueLabels_section_classification ⟨"logical", "B1", "Flag", ⟨6, 6⟩, []⟩).mpr
    (Or.inr (Or.inl rfl))

/-- C6: for every `logical` Variable, regardless of its declared coded
values, the value-label block emits the variable's name followed by the
two fixed label lines pairing 0 with False and 1 with True. -/
theorem valueLabels_logical_fixed :
    ∀ v : Variable, v.type = "logical" →
      valueLabelsVarMsgs v =
        ["\t" ++ v.name ++ "\n", "\t\t0\"False\"\n\t\t1 \"True\"\n/"] ∧
      (ValueLabels okSink ⟨[v]⟩).1 = none ∧
      (ValueLabels okSink ⟨[v]⟩).2.written =
        ["VALUE LABELS\n", "\t" ++ v.name ++ "\n",
          "\t\t0\"False\"\n\t\t1 \"True\"\n/", "EXECUTE.\n\n"] := by
  intro v h
  have hne1 : v.type ≠ "single" := by rw [h]; decide
  have hne2 : v.type ≠ "multiple" := by rw [h]; decide
  have hmsgs : valueLabelsVarMsgs v =
      ["\t" ++ v.name ++ "\n", "\t\t0\"False\"\n\t\t1 \"True\"\n/"] := by
    simp only [valueLabelsVarMsgs]
    rw [if_neg hne1, if_neg hne2, if_pos h]
  refine ⟨hmsgs, by simp [ValueLabels_run_one], ?_⟩
  simp [ValueLabels_run_one, hmsgs]

/-- C6 witness: a logical variable carrying a (non-empty) declared
coded-value list still gets exactly the fixed False/True labels. -/
theorem valueLabels_logical_fixed_witness :
    valueLabelsVarMsgs ⟨"logical", "B2", "Flag2", ⟨6, 6⟩, [⟨7, "Seven"⟩]⟩ =
      ["\tB2\n", "\t\t0\"False\"\n\t\t1 \"True\"\n/"] := by
  exact (valueLabels_logical_fixed ⟨"logical", "B2", "Flag2", ⟨6, 6⟩, [⟨7, "Seven"⟩]⟩
    rfl).1.trans (by decide)

/-- C7: for every `multiple` Variable, the value-label block emits, for
each coded value, a section named name#code whose two label lines pair 0
with No and 1 with that coded value's own text. -/
theorem valueLabels_multiple_sections :
    ∀ v : Variable, v.type = "multiple" →
      valueLabelsVarMsgs v = v.vals.flatMap (fun mult =>
        ["\t" ++ v.name ++ "#" ++ toString mult.value ++ "\n",
          "\t\t0\"No\"\n\t\t1 \"" ++ mult.name ++ "\"\n/"]) ∧
      (ValueLabels okSink ⟨[v]⟩).2.written =
        "VALUE LABELS\n" :: (v.vals.flatMap (fun mult =>
          ["\t" ++ v.name ++ "#" ++ toString mult.value ++ "\n",
            "\t\t0\"No\"\n\t\t1 \"" ++ mult.name ++ "\"\n/"]) ++ ["EXECUTE.\n\n"]) := by
  intro v h
  have hne1 : v.type ≠ "single" := by rw [h]; decide
  have hmsgs : valueLabelsVarMsgs v = v.vals.flatMap (fun mult =>
      ["\t" ++ v.name ++ "#" ++ toString mult.value ++ "\n",
        "\t\t0\"No\"\n\t\t1 \"" ++ mult.name ++ "\"\n/"]) := by
    simp only [valueLabelsVarMsgs]
    rw [if_neg hne1, if_pos h]
  refine ⟨hmsgs, ?_⟩
  simp [ValueLabels_run_one, hmsgs]

/-- C7 witness: a multiple variable with coded values (1, Red) and
(2, Blue) yields the sections Q2#1 with 0 No / 1 Red and Q2#2 with
0 No / 1 Blue. -/
theorem valueLabels_multiple_sections_witness :
    valueLabelsVarMsgs ⟨"multiple", "Q2", "Multi", ⟨6, 6⟩, [⟨1, "Red"⟩, ⟨2, "Blue"⟩]⟩ =
      ["\tQ2#1\n", "\t\t0\"No\"\n\t\t1 \"Red\"\n/",
        "\tQ2#2\n", "\t\t0\"No\"\n\t\t1 \"Blue\"\n/"] := by
  exact (valueLabels_multiple_sections
    ⟨"multiple", "Q2", "Multi", ⟨6, 6⟩, [⟨1, "Red"⟩, ⟨2, "Blue"⟩]⟩ rfl).1.trans (by decide)

/-- C1 counterexample: for a `single` Variable whose name and label (and
coded-value text) differ, the emitted label line pairs the code with the
variable's *name*, not with its label as the claim states. -/
theorem valueLabels_single_label_counterexample :
    valueLabelsVarMsgs ⟨"single", "Q7", "How satisfied are you", ⟨1, 1⟩, [⟨3, "Very"⟩]⟩ =
      ["\tQ7\n", "\t\t3 \"Q7\"\n", "/"] ∧
    valueLabelsVarMsgs ⟨"single", "Q7", "How satisfied are you", ⟨1, 1⟩, [⟨3, "Very"⟩]⟩ ≠
      ["\tQ7\n", "\t\t3 \"How satisfied are you\"\n", "/"] := by
  exact ⟨rfl, by decide⟩

/-- C1 (amended): for every `single` Variable with a non-empty coded-value
list, the value-label block emits the variable's name followed by one
label line per coded value, each pairing the coded value's integer code
with the Variable's own *name* (not the coded value's own text, and not
the Variable's label). -/
theorem valueLabels_single_pairs_code_with_name :
    ∀ v : Variable, v.type = "single" → v.vals ≠ [] →
      valueLabelsVarMsgs v = ("\t" ++ v.name ++ "\n") ::
        (v.vals.map (fun vs => "\t\t" ++ toString vs.value ++ " \"" ++ v.name ++ "\"\n") ++
          ["/"]) ∧
      (ValueLabels okSink ⟨[v]⟩).1 = none ∧
      (ValueLabels okSink ⟨[v]⟩).2.written =
        "VALUE LABELS\n" :: ("\t" ++ v.name ++ "\n") ::
          (v.vals.map (fun vs => "\t\t" ++ toString vs.value ++ " \"" ++ v.name ++ "\"\n") ++
            ["/", "EXECUTE.\n\n"]) := by
  intro v h _
  have hmsgs : valueLabelsVarMsgs v = ("\t" ++ v.name ++ "\n") ::
      (v.vals.map (fun vs => "\t\t" ++ toString vs.value ++ " \"" ++ v.name ++ "\"\n") ++
        ["/"]) := by
    simp only [valueLabelsVarMsgs]
    rw [if_pos h]
  refine ⟨hmsgs, by simp [ValueLabels_run_one], ?_⟩
  simp [ValueLabels_run_one, hmsgs]

/-- C1 witness: a single variable named Q7 with two coded values yields
label lines quoting Q7 for both codes. -/
theorem valueLabels_single_pairs_code_with_name_witness :
    valueLabelsVarMsgs ⟨"single", "Q7", "Label7", ⟨1, 1⟩, [⟨3, "Very"⟩, ⟨4, "Not"⟩]⟩ =
      ["\tQ7\n", "\t\t3 \"Q7\"\n", "\t\t4 \"Q7\"\n", "/"] := by
  exact (valueLabels_single_pairs_code_with_name
    ⟨"single", "Q7", "Label7", ⟨1, 1⟩, [⟨3, "Very"⟩, ⟨4, "Not"⟩]⟩ rfl
    (by decide)).1.trans (by decide)

/-- C2 counterexample: with an unparseable input (xml.Unmarshal returned an
error and bound nothing), main neither reports the failure nor aborts: it
generates all four syntax blocks for the empty document and finishes. -/
theorem main_parse_failure_counterexample :
    mainGenerate (some "XML syntax error on line 1", ⟨[]⟩) "MySurvey.asc" "C:" "MySurvey"
        okSink =
      RunOutcome.done
        ⟨["FILE HANDLE longdata\n/NAME=\"MySurvey.asc\".\n", "DATA LIST FILE=longdata\n/",
            ".\n\n", "VARIABLE LABELS\n", ".\nEXECUTE.\n\n\n", "VALUE LABELS\n",
            "EXECUTE.\n\n", "SAVE OUTFILE='C:/MySurvey.sav'\n/COMPRESSED."], 8, none⟩ := by
  rfl

/-- C2 (amended): the parse error returned by the external decoder is
silently discarded — the run's outcome does not depend on it at all — and
on an unparseable input the run still generates every syntax block for
whatever data was bound, exactly as for a successful parse of that data. -/
theorem main_ignores_parse_errors :
    (∀ (perr : Option String) (dat : Variables) (o dir fn : String) (f : Sink),
      mainGenerate (perr, dat) o dir fn f = mainGenerate (none, dat) o dir fn f) ∧
    (∀ (msg : String) (dat : Variables) (o dir fn : String),
      mainGenerate (some msg, dat) o dir fn okSink =
        RunOutcome.done
          ⟨dataListMsgs o dat ++ variableLabelsMsgs dat ++ valueLabelsMsgs dat ++
              [saveMsg dir fn],
            (dataListMsgs o dat).length + (variableLabelsMsgs dat).length +
              (valueLabelsMsgs dat).length + 1, none⟩) := by
  constructor
  · intro perr dat o dir fn f
    rfl
  · intro msg dat o dir fn
    have h1 : DataList o okSink dat =
        (none, ⟨dataListMsgs o dat, (dataListMsgs o dat).length, none⟩) := by
      rw [DataList_writeAll, show okSink = (⟨[], 0, none⟩ : Sink) from rfl, writeAll_ok]
      simp
    have h2 : VariableLabels ⟨dataListMsgs o dat, (dataListMsgs o dat).length, none⟩ dat =
        (none, ⟨dataListMsgs o dat ++ variableLabelsMsgs dat,
          (dataListMsgs o dat).length + (variableLabelsMsgs dat).length, none⟩) := by
      rw [VariableLabels_writeAll]
      exact writeAll_ok _ _ _
    have h3 : ValueLabels ⟨dataListMsgs o dat ++ variableLabelsMsgs dat,
          (dataListMsgs o dat).length + (variableLabelsMsgs dat).length, none⟩ dat =
        (none, ⟨dataListMsgs o dat ++ variableLabelsMsgs dat ++ valueLabelsMsgs dat,
          (dataListMsgs o dat).length + (variableLabelsMsgs dat).length +
            (valueLabelsMsgs dat).length, none⟩) := by
      rw [ValueLabels_writeAll]
      have h := writeAll_ok (valueLabelsMsgs dat)
        (dataListMsgs o dat ++ variableLabelsMsgs dat)
        ((dataListMsgs o dat).length + (variableLabelsMsgs dat).length)
      rw [h]
    have h4 : SaveToSPSS dir fn
        ⟨dataListMsgs o dat ++ variableLabelsMsgs dat ++ valueLabelsMsgs dat,
          (dataListMsgs o dat).length + (variableLabelsMsgs dat).length +
            (valueLabelsMsgs dat).length, none⟩ =
        SaveResult.ok
          ⟨dataListMsgs o dat ++ variableLabelsMsgs dat ++ valueLabelsMsgs dat ++
              [saveMsg dir fn],
            (dataListMsgs o dat).length + (variableLabelsMsgs dat).length +
              (valueLabelsMsgs dat).length + 1, none⟩ := by
      simp [SaveToSPSS, Sink.write]
    simp only [mainGenerate, h1, h2, h3, h4]

/-- C9 counterexample: a write failure during the save directive is not
propagated to the caller.  SaveToSPSS reaches log.Fatalln, modelled as the
fatalExit outcome: the process terminates and the function never returns
the error (its only normal return carries a nil error, line 189). -/
theorem saveToSPSS_fatal_counterexample :
    SaveToSPSS "C:/out" "MySurvey" (failSink 0) =
      SaveResult.fatalExit ⟨0, "SAVE OUTFILE='C:/out/MySurvey.sav'\n/COMPRESSED."⟩
        ⟨[], 1, some 0⟩ ∧
    (¬ ∃ f' : Sink, SaveToSPSS "C:/out" "MySurvey" (failSink 0) = SaveResult.ok f') := by
  refine ⟨rfl, ?_⟩
  rintro ⟨f', hf⟩
  simp [SaveToSPSS, Sink.write, failSink, saveMsg] at hf

/-- C9 (amended): a write failure during the layout, variable-label or
value-label block is returned to the caller unmodified — the result is
exactly the failing write's error, the sink holds exactly the strings
written before the failure, and the failing attempt is the last attempt
made (no retry, no recovery) — while a write failure during the save
directive is never returned: SaveToSPSS ends in the fatal-exit outcome. -/
theorem write_failure_propagation :
    (∀ (o : String) (d : Variables) (n : Nat), n < (dataListMsgs o d).length →
      DataList o (failSink n) d =
        (some ⟨n, (dataListMsgs o d).getD n ""⟩,
          ⟨(dataListMsgs o d).take n, n + 1, some n⟩)) ∧
    (∀ (d : Variables) (n : Nat), n < (variableLabelsMsgs d).length →
      VariableLabels (failSink n) d =
        (some ⟨n, (variableLabelsMsgs d).getD n ""⟩,
          ⟨(variableLabelsMsgs d).take n, n + 1, some n⟩)) ∧
    (∀ (d : Variables) (n : Nat), n < (valueLabelsMsgs d).length →
      ValueLabels (failSink n) d =
        (some ⟨n, (valueLabelsMsgs d).getD n ""⟩,
          ⟨(valueLabelsMsgs d).take n, n + 1, some n⟩)) ∧
    (∀ (p fn : String) (w : List String) (k : Nat),
      SaveToSPSS p fn ⟨w, k, some k⟩ =
        SaveResult.fatalExit ⟨k, saveMsg p fn⟩ ⟨w, k + 1, some k⟩) := by
  refine ⟨?_, ?_, ?_, ?_⟩
  · intro o d n hn
    rw [DataList_writeAll]
    have h := writeAll_fail (dataListMsgs o d) [] 0 n (Nat.zero_le n) (by simpa using hn)
    simpa [failSink] using h
  · intro d n hn
    rw [VariableLabels_writeAll]
    have h := writeAll_fail (variableLabelsMsgs d) [] 0 n (Nat.zero_le n) (by simpa using hn)
    simpa [failSink] using h
  · intro d n hn
    rw [ValueLabels_writeAll]
    have h := writeAll_fail (valueLabelsMsgs d) [] 0 n (Nat.zero_le n) (by simpa using hn)
    simpa [failSink] using h
  · intro p fn w k
    simp [SaveToSPSS, Sink.write]

/-- C9 witness: failing the second write of the layout block for the empty
document returns exactly that write's error with only the first string
written, and a failing save write ends in the fatal-exit outcome. -/
theorem write_failure_propagation_witness :
    DataList "a.asc" (failSink 1) ⟨[]⟩ =
      (some ⟨1, "DATA LIST FILE=longdata\n/"⟩,
        ⟨["FILE HANDLE longdata\n/NAME=\"a.asc\".\n"], 2, some 1⟩) ∧
    SaveToSPSS "C:" "S" ⟨[], 0, some 0⟩ =
      SaveResult.fatalExit ⟨0, saveMsg "C:" "S"⟩ ⟨[], 1, some 0⟩ := by
  constructor
  · have h := write_failure_propagation.1 "a.asc" ⟨[]⟩ 1 (by decide)
    exact h.trans (by decide)
  · exact write_failure_propagation.2.2.2 "C:" "S" [] 0

/-- C4 witness: a numeric variable contributes one layout entry; together
with a three-coded-value multiple variable the layout body has four
entries, matching the count-plus-sum formula. -/
theorem dataList_entry_counts_witness :
    (dataListVarMsgs ⟨"numeric", "N1", "Num", ⟨1, 2⟩, []⟩).length = 1 ∧
    ((⟨[⟨"numeric", "N1", "Num", ⟨1, 2⟩, []⟩,
        ⟨"multiple", "M2", "Multi", ⟨3, 3⟩, [⟨1, "A"⟩, ⟨2, "B"⟩, ⟨3, "C"⟩]⟩]⟩ :
      Variables).vars.flatMap dataListVarMsgs).length = 4 := by
  constructor
  · exact (dataList_entry_counts.1 ⟨"numeric", "N1", "Num", ⟨1, 2⟩, []⟩).trans (by decide)
  · exact (dataList_entry_counts.2.2.2
      ⟨[⟨"numeric", "N1", "Num", ⟨1, 2⟩, []⟩,
        ⟨"multiple", "M2", "Multi", ⟨3, 3⟩, [⟨1, "A"⟩, ⟨2, "B"⟩, ⟨3, "C"⟩]⟩]⟩).trans
      (by decide)

/-- C2 witness: on the empty document the run with a discarded parse error
equals the run with no parse error. -/
theorem main_ignores_parse_errors_witness :
    mainGenerate (some "bad input", ⟨[]⟩) "x.asc" "D" "F" okSink =
      mainGenerate (none, ⟨[]⟩) "x.asc" "D" "F" okSink := by
  exact main_ignores_parse_errors.1 (some "bad input") ⟨[]⟩ "x.asc" "D" "F" okSink
